import Mathlib

/-!
# Door provider sample (`samples/door/door_provider.cc`)

A shallow embedding of the door provider: the `Door` class with its four
operations, the bootstrap loop of `main` that fills the registry `g_doors`,
and the interactive command loop that drives the doors in round-robin order
through the cursor `g_turn`.

Everything the program does to the outside world (text written to `cout` and
`cerr`, calls into the data-driven bus library) is recorded, in program order,
as a list of `Effect`s.  The status codes the bus library hands back are
inputs of the model.
-/

namespace DoorProvider

/-! ## Outside world -/

/-- Status codes of the bus library, as far as the program tells them apart:
the program only ever compares a status with `ER_OK`. -/
inductive QStatus where
  | ER_OK
  | ER_FAIL
  deriving DecidableEq, Repr

/-- Modelled from the spec: the registration state of a provided object
(`datadriven::ProvidedObject::GetState()`, whose declaration is not part of the
sample).  The program only compares it with `REGISTERED`. -/
inductive RegistrationState where
  | UNPUBLISHED
  | REGISTERED
  | PENDING
  deriving DecidableEq, Repr

/-- One observable action of the program.  `cout` and `cerr` carry the text
written (an `endl` is a newline).  The other constructors are calls into the bus
library; an object is named by its bus path. -/
inductive Effect where
  /-- Text written to standard output. -/
  | cout (text : String)
  /-- Text written to standard error. -/
  | cerr (text : String)
  /-- The call `DoorInterface::Update()`: broadcast of the current value of `open`. -/
  | Update (path : String) (isOpen : Bool)
  /-- The call `reply.Send(value)` on an `OpenReply` or `CloseReply`. -/
  | Send (path : String) (value : Bool)
  /-- The call `DoorInterface::PersonPassedThrough(who)`: the pass-through signal. -/
  | PersonPassedThrough (path : String) (who : String)
  /-- The call `PutOnBus()`. -/
  | PutOnBus (path : String)
  /-- The call `RemoveFromBus()`. -/
  | RemoveFromBus (path : String)
  /-- The call `UpdateAll()`. -/
  | UpdateAll (path : String)
  deriving DecidableEq, Repr

/-- The value carried by a state-change notification, if the effect is one. -/
def Effect.notification? : Effect → Option Bool
  | .Update _ v => some v
  | _ => none

/-- The value carried by a reply, if the effect is one. -/
def Effect.reply? : Effect → Option Bool
  | .Send _ v => some v
  | _ => none

/-- The name carried by a pass-through event, if the effect is one. -/
def Effect.passThrough? : Effect → Option String
  | .PersonPassedThrough _ who => some who
  | _ => none

/-- Console output is not a bus effect; every other effect is. -/
def Effect.isBus : Effect → Bool
  | .cout _ => false
  | .cerr _ => false
  | _ => true

/-- Whether the effect is a publish or retract call into the bus library. -/
def Effect.isRegistration : Effect → Bool
  | .PutOnBus _ => true
  | .RemoveFromBus _ => true
  | .UpdateAll _ => true
  | _ => false

/-- The bus effects of a trace, in order. -/
def busEffects (t : List Effect) : List Effect := t.filter Effect.isBus

/-- The values of the state-change notifications of a trace, in order. -/
def notifications (t : List Effect) : List Bool := t.filterMap Effect.notification?

/-- The values of the replies of a trace, in order. -/
def replies (t : List Effect) : List Bool := t.filterMap Effect.reply?

/-- The names of the pass-through events of a trace, in order. -/
def passThroughs (t : List Effect) : List String := t.filterMap Effect.passThrough?

/-- The publish and retract calls of a trace, in order. -/
def registrationCalls (t : List Effect) : List Effect := t.filter Effect.isRegistration

/-- The text a trace writes to standard output. -/
def stdoutText : List Effect → String
  | [] => ""
  | .cout s :: t => s ++ stdoutText t
  | _ :: t => stdoutText t

/-- The call `s.c_str()` read back as a string, as `cout <<` and the conversion
to `qcc::String` do: the characters before the first NUL. -/
def c_str (s : String) : String := ⟨s.data.takeWhile (fun c => c ≠ Char.ofNat 0)⟩

/-! ## The `Door` class -/

/-- The fields of a `Door`: `location` and `open` from `DoorInterface`
(`open` is spelled `isOpen`, as `open` is reserved), and the path and the
registration state held by the `ProvidedObject` base. -/
structure Door where
  location : String
  isOpen : Bool
  path : String
  state : RegistrationState
  deriving DecidableEq, Repr

/-- The constructor `Door::Door(busConnection, location, open, path)`; `main`
always passes both `open` and `path`.  A new object is not on the bus yet. -/
def Door.new (location : String) (isOpen : Bool) (path : String) : Door :=
  { location := location, isOpen := isOpen, path := path, state := .UNPUBLISHED }

/-- The method `Door::GetLocation`. -/
def Door.GetLocation (d : Door) : String := d.location

/-- The method `Door::Open(reply)`.  Its argument `nextUp` is the value of
`g_doors[g_turn]->location` the method reads for its closing prompt. -/
def Door.Open (d : Door) (nextUp : String) : Door × List Effect :=
  let t1 := [Effect.cout ("Door @ " ++ c_str d.location ++ " was requested to open.\n")]
  let prompt := [Effect.cout ("[next up is " ++ c_str nextUp ++ "] >")]
  if d.isOpen then
    (d, t1 ++ [.cout "\t... but it was already open.\n", .Send d.path false] ++ prompt)
  else
    let d1 := { d with isOpen := true }
    (d1, t1 ++ [.cout "\t... and it was closed, so we can comply.\n",
                .Update d1.path d1.isOpen, .Send d1.path true] ++ prompt)

/-- The method `Door::Close(reply)`, with `nextUp` as in `Door.Open`. -/
def Door.Close (d : Door) (nextUp : String) : Door × List Effect :=
  let t1 := [Effect.cout ("Door @ " ++ c_str d.location ++ " was requested to close.\n")]
  let prompt := [Effect.cout ("[next up is " ++ c_str nextUp ++ "] >")]
  if d.isOpen then
    let d1 := { d with isOpen := false }
    (d1, t1 ++ [.cout "\t... and it was open, so we can comply.\n",
                .Update d1.path d1.isOpen, .Send d1.path true] ++ prompt)
  else
    (d, t1 ++ [.cout "\t... but it was already closed.\n", .Send d.path false] ++ prompt)

/-- The method `Door::FlipOpen()`. -/
def Door.FlipOpen (d : Door) : Door × List Effect :=
  let action := if d.isOpen then "Closing" else "Opening"
  let d1 := { d with isOpen := !d.isOpen }
  (d1, [.cout (action ++ " door @ " ++ c_str d.location ++ ".\n"), .Update d1.path d1.isOpen])

/-- The method `Door::PersonPassThrough(who)`, the tracing wrapper around the
signal. -/
def Door.PersonPassThrough (d : Door) (who : String) : Door × List Effect :=
  (d, [.cout (c_str who ++ " will pass through door @ " ++ c_str d.location ++ ".\n"),
       .PersonPassedThrough d.path who])

/-- The method `DoorInterface::PersonPassedThrough(who)`, the generated signal
emitter the command loop calls directly. -/
def Door.PersonPassedThrough (d : Door) (who : String) : Door × List Effect :=
  (d, [.PersonPassedThrough d.path who])

/-- The operations of a door that the bus or the operator can invoke. -/
inductive DoorOp where
  | Open
  | Close
  | FlipOpen
  | PersonPassThrough (who : String)
  deriving DecidableEq, Repr

/-- One operation applied to a door. -/
def Door.apply (d : Door) (nextUp : String) : DoorOp → Door × List Effect
  | .Open => d.Open nextUp
  | .Close => d.Close nextUp
  | .FlipOpen => d.FlipOpen
  | .PersonPassThrough who => d.PersonPassThrough who

/-- A sequence of operations applied to a door one after another, each holding
the mutex from start to end: the final door and the whole trace. -/
def Door.run (d : Door) (nextUp : String) : List DoorOp → Door × List Effect
  | [] => (d, [])
  | op :: ops =>
    let r1 := d.apply nextUp op
    let r2 := Door.run r1.1 nextUp ops
    (r2.1, r1.2 ++ r2.2)

/-- The values of `open` after each operation of a sequence that changed it,
read off the door itself (not off the trace). -/
def Door.changes (d : Door) (nextUp : String) : List DoorOp → List Bool
  | [] => []
  | op :: ops =>
    let d1 := (d.apply nextUp op).1
    if d1.isOpen = d.isOpen then Door.changes d1 nextUp ops
    else d1.isOpen :: Door.changes d1 nextUp ops

/-! ## Strings -/

/-- The call `s.find_first_not_of(chars, pos)` of `std::string` on the characters
of `s`: the first index `i >= pos` with `s[i]` not among `chars`; `none` is `npos`. -/
def find_first_not_of_from (chars : List Char) : List Char → Nat → Nat → Option Nat
  | [], _, _ => none
  | c :: cs, pos, i =>
    if pos ≤ i ∧ c ∉ chars then some i
    else find_first_not_of_from chars cs pos (i + 1)

/-- The call `s.find_first_not_of(chars, pos)`. -/
def find_first_not_of (s : String) (chars : String) (pos : Nat) : Option Nat :=
  find_first_not_of_from chars.data s.data pos 0

/-- The call `s.substr(pos)` for `pos <= s.length()`. -/
def substr (s : String) (pos : Nat) : String := ⟨s.data.drop pos⟩

/-! ## The program -/

/-- The global variables `g_doors` and `g_turn`.  The cursor is an `int` in the
source; it only ever holds values below `g_doors.size()`, so no wrap-around
arises and a natural number stands for it. -/
structure Globals where
  g_doors : List Door
  g_turn : Nat
  deriving DecidableEq, Repr

/-- The function `help()`. -/
def help : List Effect :=
  [.cout "q         quit\n",
   .cout "f         flip the open state of the door\n",
   .cout "p <who>   signal that <who> passed through the door\n",
   .cout "r         remove or reattach the door to the bus\n",
   .cout "n         move to the next door in the list\n",
   .cout "h         show this help message\n"]

/-- Modelled from the spec: `PutOnBus()` and `UpdateAll()` of the bus library
(Publish).  On success the object is REGISTERED; on failure it remains in its
prior state. -/
def Door.published (d : Door) (status : QStatus) : Door :=
  if status = .ER_OK then { d with state := .REGISTERED } else d

/-- Modelled from the spec: `RemoveFromBus()` of the bus library (Retract).  On
success the object is UNPUBLISHED; on failure it remains in its prior state. -/
def Door.retracted (d : Door) (status : QStatus) : Door :=
  if status = .ER_OK then { d with state := .UNPUBLISHED } else d

/-- The statuses the bus library returns during bootstrap: of the bus
connection, and for the door made from `argv[i]`, of its construction and of its
`PutOnBus()`. -/
structure Bus where
  connection : QStatus
  doorStatus : Nat → QStatus
  putOnBus : Nat → QStatus

/-- The bootstrap loop `for (int i = 1; i < argc; ++i)`: `args` are the
arguments still to process, the first of them being `argv[i]`.  The arguments
are C strings and a path is "/Door/" followed by digits, so neither holds a NUL
and `path.c_str()` is the path itself. -/
def bootstrapLoop (bus : Bus) : Nat → List String → List Door → List Door × List Effect
  | _, [], g_doors => (g_doors, [])
  | i, arg :: args, g_doors =>
    let path := "/Door/" ++ toString i
    let door := Door.new arg false path
    if bus.doorStatus i = .ER_OK then
      let status := bus.putOnBus i
      let door1 := door.published status
      let t := [Effect.PutOnBus path] ++
        (if status ≠ .ER_OK then [Effect.cerr "Failed to announce door existence !\n"] else [])
      let r := bootstrapLoop bus (i + 1) args (g_doors ++ [door1])
      (r.1, t ++ r.2)
    else
      let t := [Effect.cerr ("Failed to construct a door on location: " ++ arg ++ " properly\n")]
      let r := bootstrapLoop bus (i + 1) args g_doors
      (r.1, t ++ r.2)

/-- One line of standard input, with the status the bus library returns if the
command of the line makes a publish or retract call. -/
structure StdinLine where
  input : String
  busStatus : QStatus
  deriving DecidableEq, Repr

/-- What one pass through the body of `while (!done)` leaves behind. -/
structure Iteration where
  globals : Globals
  done : Bool
  trace : List Effect
  deriving DecidableEq, Repr

/-- One pass through the body of `while (!done)` on the line read by `getline`.
The result is `none` when `g_doors[g_turn]` is out of range.  After the switch
the cursor advances whenever `nextDoor` is still true, which it is on every
branch but `h` and `default`. -/
def loopBody (g : Globals) (line : StdinLine) : Option Iteration :=
  match g.g_doors[g.g_turn]? with
  | none => none
  | some d =>
    let prompt := [Effect.cout ("[next up is " ++ c_str d.GetLocation ++ "] >")]
    let input := line.input
    match input.data with
    | [] => some { globals := g, done := false, trace := prompt }
    | cmd :: _ =>
      let advance (doors : List Door) : Globals :=
        { g_doors := doors, g_turn := (g.g_turn + 1) % doors.length }
      if cmd = 'q' then
        some { globals := advance g.g_doors, done := true, trace := prompt }
      else if cmd = 'f' then
        let r := d.FlipOpen
        some { globals := advance (g.g_doors.set g.g_turn r.1), done := false,
               trace := prompt ++ r.2 }
      else if cmd = 'p' then
        match find_first_not_of input " \t" 1 with
        | none =>
          some { globals := advance g.g_doors, done := false, trace := prompt ++ help }
        | some whopos =>
          let who := substr input whopos
          let r := d.PersonPassedThrough (c_str who)
          some { globals := advance (g.g_doors.set g.g_turn r.1), done := false,
                 trace := prompt ++ r.2 }
      else if cmd = 'r' then
        if d.state = .REGISTERED then
          let d1 := d.retracted line.busStatus
          some { globals := advance (g.g_doors.set g.g_turn d1), done := false,
                 trace := prompt ++ [.RemoveFromBus d.path] }
        else
          let d1 := d.published line.busStatus
          let t := [Effect.UpdateAll d.path] ++
            (if line.busStatus ≠ .ER_OK then
              [Effect.cerr "Failed to completely remove door !\n"] else [])
          some { globals := advance (g.g_doors.set g.g_turn d1), done := false,
                 trace := prompt ++ t }
      else if cmd = 'n' then
        some { globals := advance g.g_doors, done := false, trace := prompt }
      else
        some { globals := g, done := false, trace := prompt ++ help }

/-- The loop `while (!done)` on the lines standard input still holds.  When the
lines run out before a `q`, the loop has shown its prompt and waits in
`getline`: `done` is false in the result. -/
def commandLoop (g : Globals) : List StdinLine → Option Iteration
  | [] =>
    match g.g_doors[g.g_turn]? with
    | none => none
    | some d => some { globals := g, done := false,
                       trace := [.cout ("[next up is " ++ c_str d.GetLocation ++ "] >")] }
  | line :: lines =>
    match loopBody g line with
    | none => none
    | some it =>
      if it.done then some it
      else
        match commandLoop it.globals lines with
        | none => none
        | some r => some { r with trace := it.trace ++ r.trace }

/-- The exit statuses `EXIT_SUCCESS` and `EXIT_FAILURE`. -/
def EXIT_SUCCESS : Nat := 0

/-- The exit status `EXIT_FAILURE`. -/
def EXIT_FAILURE : Nat := 1

/-- What a run of `main` leaves behind: the exit status, or `none` while the
command loop still waits for input; the globals; and the trace. -/
structure MainResult where
  exit : Option Nat
  globals : Globals
  trace : List Effect
  deriving DecidableEq, Repr

/-- The function `main(argc, argv)` on the lines `stdin` holds; `argc` is the
length of `argv`.  The result is `none` when `g_doors[g_turn]` is out of range. -/
def main (bus : Bus) (argv : List String) (stdin : List StdinLine) : Option MainResult :=
  if bus.connection ≠ .ER_OK then
    some { exit := some EXIT_FAILURE, globals := ⟨[], 0⟩,
           trace := [.cerr "Bus Connection not correctly initialized !!!\n"] }
  else if argv.length = 1 then
    some { exit := some EXIT_FAILURE, globals := ⟨[], 0⟩,
           trace := [.cerr ("Usage: " ++ argv.headD "" ++
             " location1 [location2 [... [locationN] ...]]\n")] }
  else
    let r := bootstrapLoop bus 1 (argv.drop 1) []
    if r.1.isEmpty then
      some { exit := some EXIT_FAILURE, globals := ⟨r.1, 0⟩,
             trace := r.2 ++ [.cerr "No doors available\n"] }
    else
      match commandLoop ⟨r.1, 0⟩ stdin with
      | none => none
      | some it =>
        some { exit := if it.done then some EXIT_SUCCESS else none,
               globals := it.globals, trace := r.2 ++ it.trace }

/-! ## The claims of the specification, as the spec words them -/

/-- The spec's reading of an input line as an accepted command of the
round-robin invariant: flip, pass-through with a name, reattach or next.  Help,
unrecognized letters, empty lines and a pass-through without a name are not. -/
def acceptedCommand (input : String) : Bool :=
  match input.data with
  | [] => false
  | cmd :: _ =>
    cmd = 'f' || cmd = 'r' || cmd = 'n' ||
      (cmd = 'p' && (find_first_not_of input " \t" 1).isSome)

/-- The number `K` of accepted commands among the lines. -/
def acceptedCount (lines : List StdinLine) : Nat :=
  (lines.filter (fun l => acceptedCommand l.input)).length

/-- The active set as the spec words it: the doors whose Publish succeeded, in
input order; `i` is the index of the first of `args` in `argv`. -/
def activeSetPerSpec (bus : Bus) (i : Nat) (args : List String) : List Door :=
  (args.enumFrom i).filterMap (fun a =>
    if bus.doorStatus a.1 = .ER_OK ∧ bus.putOnBus a.1 = .ER_OK then
      some ((Door.new a.2 false ("/Door/" ++ toString a.1)).published .ER_OK)
    else none)

/-- The doors the bootstrap loop keeps: those whose construction succeeded, in
input order, each in the registration state its `PutOnBus()` left it in. -/
def constructedDoors (bus : Bus) (i : Nat) (args : List String) : List Door :=
  (args.enumFrom i).filterMap (fun a =>
    if bus.doorStatus a.1 = .ER_OK then
      some ((Door.new a.2 false ("/Door/" ++ toString a.1)).published (bus.putOnBus a.1))
    else none)

/-- The text written to standard error, message by message. -/
def stderrLog (t : List Effect) : List String :=
  t.filterMap (fun e => match e with
    | .cerr s => some s
    | _ => none)

/-- The messages the bootstrap loop logs, per location in input order: one for
a door that failed to construct, one for a constructed door whose `PutOnBus()`
failed, none otherwise. -/
def bootstrapLog (bus : Bus) (i : Nat) (args : List String) : List String :=
  (args.enumFrom i).filterMap (fun a =>
    if bus.doorStatus a.1 = .ER_OK then
      if bus.putOnBus a.1 = .ER_OK then none
      else some "Failed to announce door existence !\n"
    else some ("Failed to construct a door on location: " ++ a.2 ++ " properly\n"))

/-- The value of the local `nextDoor` at the end of the switch on the first
character of a non-empty line: it is reset only under `h` and `default`. -/
def nextDoor (input : String) : Bool :=
  match input.data with
  | [] => false
  | cmd :: _ => cmd = 'q' || cmd = 'f' || cmd = 'p' || cmd = 'r' || cmd = 'n'

/-- The number of lines after which the loop advances the cursor. -/
def advanceCount (lines : List StdinLine) : Nat :=
  (lines.filter (fun l => nextDoor l.input)).length

/-- A pass-through line without a name: the letter `p` followed only by spaces
and tabs. -/
def namelessPassThrough (input : String) : Bool :=
  input.data.head? = some 'p' && (find_first_not_of input " \t" 1).isNone

/-! ## Sample data -/

/-- A closed, registered door at "Garage". -/
def garage : Door := { location := "Garage", isOpen := false, path := "/Door/1", state := .REGISTERED }

/-- A closed, registered door at "Lobby". -/
def lobby : Door := { location := "Lobby", isOpen := false, path := "/Door/2", state := .REGISTERED }

/-- An open, registered door at "Garage". -/
def garageOpen : Door := { garage with isOpen := true }

/-- A bus on which every door constructs and no door can be announced. -/
def deafBus : Bus :=
  { connection := .ER_OK, doorStatus := fun _ => .ER_OK, putOnBus := fun _ => .ER_FAIL }

/-- A bus on which the door of the second location fails to construct and the
door of the third cannot be announced. -/
def patchyBus : Bus :=
  { connection := .ER_OK,
    doorStatus := fun i => if i = 2 then .ER_FAIL else .ER_OK,
    putOnBus := fun i => if i = 3 then .ER_FAIL else .ER_OK }

/-- A bus whose connection is not initialized. -/
def downBus : Bus :=
  { connection := .ER_FAIL, doorStatus := fun _ => .ER_OK, putOnBus := fun _ => .ER_OK }

/-- A bus on which every door constructs and is announced. -/
def goodBus : Bus :=
  { connection := .ER_OK, doorStatus := fun _ => .ER_OK, putOnBus := fun _ => .ER_OK }

/-- A line of standard input during which the bus accepts every call. -/
def okLine (input : String) : StdinLine := { input := input, busStatus := .ER_OK }

/-- A line of standard input during which the bus refuses every call. -/
def failLine (input : String) : StdinLine := { input := input, busStatus := .ER_FAIL }

/-- The command line of the scenario: the program name and two locations. -/
def scenarioArgv : List String := ["door_provider", "Garage", "Lobby"]

/-- The value of a string of decimal digits, most significant digit first. -/
def decimalValue (cs : List Char) : Nat :=
  cs.foldl (fun acc c => 10 * acc + (c.toNat - 48)) 0

/-! ## Open, Close and FlipOpen on one door -/

/-- Claim C1: a successful transition (Open on a closed door, Close on an open
door) sets `isOpen` to the new value and its bus effects are exactly two, in this
order: the notification carrying the post-transition value, then the reply
`true`; so the call produces one notification and one reply and no other. -/
theorem transition_effects (d : Door) (nextUp : String) :
    (d.isOpen = false →
      (d.Open nextUp).1.isOpen = true ∧
      busEffects (d.Open nextUp).2 =
        [.Update d.path (d.Open nextUp).1.isOpen, .Send d.path true] ∧
      notifications (d.Open nextUp).2 = [true] ∧
      replies (d.Open nextUp).2 = [true]) ∧
    (d.isOpen = true →
      (d.Close nextUp).1.isOpen = false ∧
      busEffects (d.Close nextUp).2 =
        [.Update d.path (d.Close nextUp).1.isOpen, .Send d.path true] ∧
      notifications (d.Close nextUp).2 = [false] ∧
      replies (d.Close nextUp).2 = [true]) := by
  constructor <;> intro h <;>
    simp [Door.Open, Door.Close, h, busEffects, notifications, replies, Effect.isBus,
      Effect.notification?, Effect.reply?]

/-- Witness of `transition_effects`: Open on the closed Garage door and Close on
the open one. -/
theorem transition_effects_witness :
    (garage.isOpen = false ∧
      busEffects (garage.Open "Garage").2 =
        [.Update garage.path (garage.Open "Garage").1.isOpen, .Send garage.path true]) ∧
    (garageOpen.isOpen = true ∧
      busEffects (garageOpen.Close "Garage").2 =
        [.Update garageOpen.path (garageOpen.Close "Garage").1.isOpen,
         .Send garageOpen.path true]) :=
  ⟨⟨rfl, ((transition_effects garage "Garage").1 rfl).2.1⟩,
   ⟨rfl, ((transition_effects garageOpen "Garage").2 rfl).2.1⟩⟩

/-- Claim C2: a no-op call (Open on an open door, Close on a closed door) sends
exactly one reply, with value `false`, leaves the door as it was, and broadcasts
no notification: the reply is its only bus effect. -/
theorem noop_effects (d : Door) (nextUp : String) :
    (d.isOpen = true →
      (d.Open nextUp).1 = d ∧
      busEffects (d.Open nextUp).2 = [.Send d.path false] ∧
      notifications (d.Open nextUp).2 = [] ∧
      replies (d.Open nextUp).2 = [false]) ∧
    (d.isOpen = false →
      (d.Close nextUp).1 = d ∧
      busEffects (d.Close nextUp).2 = [.Send d.path false] ∧
      notifications (d.Close nextUp).2 = [] ∧
      replies (d.Close nextUp).2 = [false]) := by
  constructor <;> intro h <;>
    simp [Door.Open, Door.Close, h, busEffects, notifications, replies, Effect.isBus,
      Effect.notification?, Effect.reply?]

/-- Witness of `noop_effects`: Open on the open Garage door and Close on the
closed one. -/
theorem noop_effects_witness :
    (garageOpen.isOpen = true ∧ (garageOpen.Open "Garage").1 = garageOpen ∧
      replies (garageOpen.Open "Garage").2 = [false]) ∧
    (garage.isOpen = false ∧ (garage.Close "Garage").1 = garage ∧
      replies (garage.Close "Garage").2 = [false]) :=
  ⟨⟨rfl, ((noop_effects garageOpen "Garage").1 rfl).1,
      ((noop_effects garageOpen "Garage").1 rfl).2.2.2⟩,
   ⟨rfl, ((noop_effects garage "Garage").2 rfl).1,
      ((noop_effects garage "Garage").2 rfl).2.2.2⟩⟩

/-- Claim C9: FlipOpen sets `isOpen` to its negation whatever the door state,
changes nothing else, broadcasts exactly one notification carrying the new
value, and sends no reply: the notification is its only bus effect. -/
theorem flipOpen_effects (d : Door) :
    d.FlipOpen.1 = { d with isOpen := !d.isOpen } ∧
    d.FlipOpen.1.isOpen = (!d.isOpen) ∧
    busEffects d.FlipOpen.2 = [.Update d.path d.FlipOpen.1.isOpen] ∧
    notifications d.FlipOpen.2 = [d.FlipOpen.1.isOpen] ∧
    replies d.FlipOpen.2 = [] :=
  ⟨rfl, rfl, rfl, rfl, rfl⟩

/-- Claim C7, as stated, fails on a door that is open beforehand: both Opens are
no-ops there and the replies are (false, false), not (true, false). -/
theorem open_twice_on_open_door :
    replies (garageOpen.run "Garage" [.Open, .Open]).2 = [false, false] ∧
    replies (garageOpen.run "Garage" [.Open, .Open]).2 ≠ [true, false] := by
  decide

/-- Claim C7, amended: on every door that is closed beforehand, Open followed
immediately by Open yields the reply sequence (true, false) and `isOpen` ends
true. -/
theorem open_twice_from_closed (d : Door) (nextUp : String) (h : d.isOpen = false) :
    replies (d.run nextUp [.Open, .Open]).2 = [true, false] ∧
    (d.run nextUp [.Open, .Open]).1.isOpen = true := by
  simp [Door.run, Door.apply, Door.Open, h, replies, Effect.reply?]

/-- Witness of `open_twice_from_closed` on the closed Garage door. -/
theorem open_twice_from_closed_witness :
    garage.isOpen = false ∧
    replies (garage.run "Garage" [.Open, .Open]).2 = [true, false] ∧
    (garage.run "Garage" [.Open, .Open]).1.isOpen = true :=
  ⟨rfl, open_twice_from_closed garage "Garage" rfl⟩

/-- Claim C8, as stated, fails: on a closed door, FlipOpen then Open broadcasts a
single notification, since the Open finds the door already open. -/
theorem flip_then_open_single_notification :
    notifications (garage.run "Garage" [.FlipOpen, .Open]).2 = [true] ∧
    (notifications (garage.run "Garage" [.FlipOpen, .Open]).2).length ≠ 2 := by
  decide

/-- Claim C8, amended: for every initial door state, Open then FlipOpen ends
closed and FlipOpen then Open ends open; FlipOpen always broadcasts and Open
broadcasts only when it finds the door closed, so two notifications are
broadcast when the Open takes effect (Open first on a closed door, FlipOpen
first on an open door) and one otherwise, never none. -/
theorem open_flip_serial_orders (d : Door) (nextUp : String) :
    (d.run nextUp [.Open, .FlipOpen]).1.isOpen = false ∧
    (d.run nextUp [.FlipOpen, .Open]).1.isOpen = true ∧
    notifications (d.run nextUp [.Open, .FlipOpen]).2 =
      (if d.isOpen then [false] else [true, false]) ∧
    notifications (d.run nextUp [.FlipOpen, .Open]).2 =
      (if d.isOpen then [false, true] else [true]) := by
  cases h : d.isOpen <;>
    simp [Door.run, Door.apply, Door.Open, Door.FlipOpen, h, notifications,
      Effect.notification?]

/-! ## Sequences of operations on one door -/

/-- The notifications of a trace made of two parts. -/
theorem notifications_append (t u : List Effect) :
    notifications (t ++ u) = notifications t ++ notifications u := by
  simp [notifications, List.filterMap_append]

/-- One operation broadcasts the new value of `open` if it changed it, and
nothing otherwise. -/
theorem apply_notifications (d : Door) (nextUp : String) (op : DoorOp) :
    notifications (d.apply nextUp op).2 =
      (if (d.apply nextUp op).1.isOpen = d.isOpen then []
       else [(d.apply nextUp op).1.isOpen]) := by
  cases op <;> cases h : d.isOpen <;>
    simp [Door.apply, Door.Open, Door.Close, Door.FlipOpen, Door.PersonPassThrough, h,
      notifications, Effect.notification?]

/-- The notifications of a run are the values `open` took at its changes. -/
theorem run_notifications (d : Door) (nextUp : String) (ops : List DoorOp) :
    notifications (d.run nextUp ops).2 = d.changes nextUp ops := by
  induction ops generalizing d with
  | nil => rfl
  | cons op ops ih =>
    simp only [Door.run, Door.changes, notifications_append, apply_notifications, ih]
    split <;> simp

/-- The first change of a run, if any, is to the negation of the initial value. -/
theorem changes_head (d : Door) (nextUp : String) (ops : List DoorOp) :
    ∀ v ∈ (d.changes nextUp ops).head?, v = !d.isOpen := by
  induction ops generalizing d with
  | nil => simp [Door.changes]
  | cons op ops ih =>
    intro v hv
    simp only [Door.changes] at hv
    split at hv
    · rename_i heq
      rw [← heq]
      exact ih _ v hv
    · rename_i hne
      simp only [List.head?_cons, Option.mem_def, Option.some.injEq] at hv
      subst hv
      revert hne
      cases (d.apply nextUp op).1.isOpen <;> cases d.isOpen <;> simp

/-- Consecutive changes of a run carry alternating values. -/
theorem changes_chain (d : Door) (nextUp : String) (ops : List DoorOp) :
    List.Chain' (fun a b => a ≠ b) (d.changes nextUp ops) := by
  induction ops generalizing d with
  | nil => simp [Door.changes]
  | cons op ops ih =>
    simp only [Door.changes]
    split
    · exact ih _
    · rw [List.chain'_cons']
      refine ⟨?_, ih _⟩
      intro y hy
      rw [changes_head _ _ _ y hy]
      cases (d.apply nextUp op).1.isOpen <;> simp

/-- A run without changes ends with the initial value of `open`. -/
theorem changes_nil (d : Door) (nextUp : String) (ops : List DoorOp)
    (h : d.changes nextUp ops = []) : (d.run nextUp ops).1.isOpen = d.isOpen := by
  induction ops generalizing d with
  | nil => rfl
  | cons op ops ih =>
    simp only [Door.changes] at h
    split at h
    · rename_i heq
      simp only [Door.run]
      rw [ih _ h, heq]
    · simp at h

/-- The last change of a run, if any, is to the final value of `open`. -/
theorem changes_last (d : Door) (nextUp : String) (ops : List DoorOp) :
    d.changes nextUp ops = [] ∨
      (d.changes nextUp ops).getLast? = some (d.run nextUp ops).1.isOpen := by
  induction ops generalizing d with
  | nil => exact Or.inl rfl
  | cons op ops ih =>
    simp only [Door.changes, Door.run]
    split
    · exact ih _
    · right
      rcases ih (d.apply nextUp op).1 with h0 | hl
      · rw [h0, changes_nil _ _ _ h0]
        rfl
      · rw [List.getLast?_cons, hl]
        rfl

/-- Claim C6: for every door and every finite sequence of Open, Close, FlipOpen
and AnnouncePassThrough applied one after another, the notifications broadcast
are, in order, the values `isOpen` took right after each operation that changed
it (so there are as many notifications as changing operations), consecutive
notifications carry alternating values, and if any notification was broadcast
the last one carries the current `isOpen`. -/
theorem notifications_track_changes (d : Door) (nextUp : String) (ops : List DoorOp) :
    notifications (d.run nextUp ops).2 = d.changes nextUp ops ∧
    (notifications (d.run nextUp ops).2).length = (d.changes nextUp ops).length ∧
    List.Chain' (fun a b => a ≠ b) (notifications (d.run nextUp ops).2) ∧
    (notifications (d.run nextUp ops).2 = [] ∨
      (notifications (d.run nextUp ops).2).getLast? = some (d.run nextUp ops).1.isOpen) := by
  rw [run_notifications]
  exact ⟨rfl, rfl, changes_chain d nextUp ops, changes_last d nextUp ops⟩

/-! ## Bootstrap -/

/-- Publishing leaves the path of a door as it is. -/
theorem published_path (d : Door) (s : QStatus) : (d.published s).path = d.path := by
  unfold Door.published
  split <;> rfl

/-- The bootstrap loop from any index and any registry: it appends the doors
that constructed, logs one message per failure, and calls `PutOnBus()` once on
each door that constructed. -/
theorem bootstrapLoop_spec (bus : Bus) (i : Nat) (args : List String) (acc : List Door) :
    (bootstrapLoop bus i args acc).1 = acc ++ constructedDoors bus i args ∧
    stderrLog (bootstrapLoop bus i args acc).2 = bootstrapLog bus i args ∧
    registrationCalls (bootstrapLoop bus i args acc).2 =
      (constructedDoors bus i args).map (fun d => .PutOnBus d.path) := by
  induction args generalizing i acc with
  | nil => simp [bootstrapLoop, constructedDoors, bootstrapLog, stderrLog, registrationCalls]
  | cons arg args ih =>
    have h1 := ih (i + 1)
    simp only [constructedDoors, bootstrapLog, stderrLog, registrationCalls] at h1 ⊢
    by_cases hc : bus.doorStatus i = .ER_OK
    · by_cases hp : bus.putOnBus i = .ER_OK
      · simp [bootstrapLoop, hc, hp, List.enumFrom_cons, h1, Effect.isRegistration,
          published_path, Door.new]
      · simp [bootstrapLoop, hc, hp, List.enumFrom_cons, h1, Effect.isRegistration,
          published_path, Door.new]
    · simp [bootstrapLoop, hc, List.enumFrom_cons, h1, Effect.isRegistration]

/-- Claim C5, as stated, fails: a door that constructs but cannot be announced is
kept in the registry, while the spec's active set leaves it out. -/
theorem unannounced_door_is_kept :
    (bootstrapLoop deafBus 1 ["Garage"] []).1 = [Door.new "Garage" false "/Door/1"] ∧
    stderrLog (bootstrapLoop deafBus 1 ["Garage"] []).2 =
      ["Failed to announce door existence !\n"] ∧
    activeSetPerSpec deafBus 1 ["Garage"] = [] ∧
    (bootstrapLoop deafBus 1 ["Garage"] []).1 ≠ activeSetPerSpec deafBus 1 ["Garage"] := by
  decide

/-- Claim C5, amended: for every ordered list of locations, bootstrap processes
the locations in order and the resulting registry contains exactly the doors
whose construction succeeded, in input order, `PutOnBus()` having been called
once on each of them: a door whose Publish fails is logged and kept (still
unpublished), a door whose construction fails is logged and excluded, and
bootstrap continues with the remaining locations. -/
theorem bootstrap_keeps_constructed_doors (bus : Bus) (locations : List String) :
    (bootstrapLoop bus 1 locations []).1 = constructedDoors bus 1 locations ∧
    stderrLog (bootstrapLoop bus 1 locations []).2 = bootstrapLog bus 1 locations ∧
    registrationCalls (bootstrapLoop bus 1 locations []).2 =
      (constructedDoors bus 1 locations).map (fun d => .PutOnBus d.path) := by
  have h := bootstrapLoop_spec bus 1 locations []
  simpa using h

/-! ## The command loop -/

/-- Claim C4, on the code: the line "p" shows the help text and emits no
pass-through event, as the claim says, yet the cursor moves from Garage to
Lobby, where the claim says it stays. -/
theorem nameless_passthrough_advances :
    ∃ it, loopBody ⟨[garage, lobby], 0⟩ ⟨"p", .ER_OK⟩ = some it ∧
      it.trace = [.cout "[next up is Garage] >"] ++ help ∧
      passThroughs it.trace = [] ∧
      it.globals.g_turn = 1 ∧ it.globals.g_turn ≠ 0 :=
  ⟨_, rfl, by decide, by decide, by decide, by decide⟩

/-- Claim C3, on the code: from turn 0 with two doors, the single line "p"
holds no accepted command (K = 0), yet the loop leaves the cursor at 1, not at
K mod N = 0. -/
theorem round_robin_fails_on_nameless_passthrough :
    acceptedCount [⟨"p", .ER_OK⟩] = 0 ∧
    ∃ it, commandLoop ⟨[garage, lobby], 0⟩ [⟨"p", .ER_OK⟩] = some it ∧
      it.globals.g_doors.length = 2 ∧
      it.globals.g_turn = 1 ∧
      it.globals.g_turn ≠ acceptedCount [⟨"p", .ER_OK⟩] % it.globals.g_doors.length :=
  ⟨by decide, _, rfl, by decide, by decide, by decide⟩

/-- The help text makes no bus call. -/
theorem help_no_bus : busEffects help = [] := by
  decide

/-- Whatever the line, the loop body calls `RemoveFromBus()` only on the door at
the cursor, and only if that door is registered. -/
theorem retract_only_registered (g : Globals) (d : Door)
    (hd : g.g_doors[g.g_turn]? = some d) (line : StdinLine) (it : Iteration) (p : String)
    (h : loopBody g line = some it) (hmem : Effect.RemoveFromBus p ∈ it.trace) :
    d.state = .REGISTERED ∧ p = d.path := by
  simp only [loopBody, hd] at h
  split at h
  · cases h
    simp at hmem
  · split_ifs at h <;> first
      | (cases h; simp [help, Door.FlipOpen] at hmem; done)
      | (cases h; simp [help] at hmem; exact ⟨by assumption, hmem⟩)
      | (split at h <;> cases h <;> simp [help, Door.PersonPassedThrough] at hmem)

/-- Claim C10: on every dispatcher state whose cursor selects a door, a line
with the reattach letter `r` makes exactly one bus call, on the door at the
cursor: `RemoveFromBus()` (Retract) if that door is REGISTERED and `UpdateAll()`
(Publish) otherwise; every other door is left as it was; the cursor advances to
(turn + 1) mod N; and on no line at all does the dispatcher call Retract on a
door that is not REGISTERED. -/
theorem reattach_step (g : Globals) (d : Door) (line : StdinLine) (rest : List Char)
    (hd : g.g_doors[g.g_turn]? = some d) (hr : line.input.data = 'r' :: rest) :
    (∃ it, loopBody g line = some it ∧
      busEffects it.trace =
        [if d.state = .REGISTERED then .RemoveFromBus d.path else .UpdateAll d.path] ∧
      (∀ j, j ≠ g.g_turn → it.globals.g_doors[j]? = g.g_doors[j]?) ∧
      it.globals.g_doors.length = g.g_doors.length ∧
      it.globals.g_turn = (g.g_turn + 1) % g.g_doors.length ∧
      it.done = false) ∧
    (∀ (other : StdinLine) (it : Iteration) (p : String), loopBody g other = some it →
      Effect.RemoveFromBus p ∈ it.trace → d.state = .REGISTERED ∧ p = d.path) := by
  refine ⟨?_, fun other it p h hmem => retract_only_registered g d hd other it p h hmem⟩
  by_cases hs : d.state = .REGISTERED
  · refine ⟨_, by simp [loopBody, hd, hr, hs]; rfl, ?_, ?_, ?_, ?_, ?_⟩
    · simp [busEffects, Effect.isBus, hs]
    · intro j hj
      simp [List.getElem?_set_ne (Ne.symm hj)]
    · simp
    · simp
    · rfl
  · refine ⟨_, by simp [loopBody, hd, hr, hs]; rfl, ?_, ?_, ?_, ?_, ?_⟩
    · cases line.busStatus <;> simp [busEffects, Effect.isBus, hs]
    · intro j hj
      simp [List.getElem?_set_ne (Ne.symm hj)]
    · simp
    · simp
    · rfl

/-- Witness of `reattach_step`: the line "r" on the registered Garage door, with
Lobby as the other door. -/
theorem reattach_step_witness :
    (⟨[garage, lobby], 0⟩ : Globals).g_doors[0]? = some garage ∧
    (⟨"r", .ER_OK⟩ : StdinLine).input.data = 'r' :: [] ∧
    ∃ it, loopBody ⟨[garage, lobby], 0⟩ ⟨"r", .ER_OK⟩ = some it ∧
      busEffects it.trace =
        [if garage.state = .REGISTERED then .RemoveFromBus garage.path
         else .UpdateAll garage.path] ∧
      it.globals.g_turn = (0 + 1) % 2 := by
  refine ⟨rfl, rfl, ?_⟩
  obtain ⟨it, h1, h2, _, _, h5, _⟩ :=
    (reattach_step ⟨[garage, lobby], 0⟩ garage ⟨"r", .ER_OK⟩ [] rfl rfl).1
  exact ⟨it, h1, h2, h5⟩

/-! ## The cursor along the command loop -/

/-- One pass of the loop body with the cursor in range: it returns, keeps the
number of doors, advances the cursor exactly when `nextDoor` is left set, and is
done exactly on a line that starts with `q`. -/
theorem loopBody_turn (g : Globals) (line : StdinLine)
    (h : g.g_turn < g.g_doors.length) :
    ∃ it, loopBody g line = some it ∧
      it.globals.g_doors.length = g.g_doors.length ∧
      it.globals.g_turn =
        (if nextDoor line.input then (g.g_turn + 1) % g.g_doors.length else g.g_turn) ∧
      (it.done = true ↔ line.input.data.head? = some 'q') := by
  have hd : g.g_doors[g.g_turn]? = some (g.g_doors[g.g_turn]) := List.getElem?_eq_getElem h
  rcases hdata : line.input.data with _ | ⟨cmd, rest⟩
  · simp [loopBody, hd, nextDoor, hdata]
  · simp only [loopBody, hd, nextDoor, hdata]
    split_ifs <;> first
      | (refine ⟨_, rfl, ?_⟩; simp_all)
      | (split <;> (refine ⟨_, rfl, ?_⟩; simp_all))

/-- The loop on lines none of which quits, with the cursor in range: it
returns, still waiting for input, and has advanced the cursor once per line
that leaves `nextDoor` set, modulo the number of doors. -/
theorem commandLoop_turn (g : Globals) (lines : List StdinLine)
    (h : g.g_turn < g.g_doors.length)
    (hq : ∀ l ∈ lines, l.input.data.head? ≠ some 'q') :
    ∃ it, commandLoop g lines = some it ∧
      it.done = false ∧
      it.globals.g_doors.length = g.g_doors.length ∧
      it.globals.g_turn = (g.g_turn + advanceCount lines) % g.g_doors.length := by
  induction lines generalizing g with
  | nil =>
    have hd : g.g_doors[g.g_turn]? = some (g.g_doors[g.g_turn]) := List.getElem?_eq_getElem h
    simp [commandLoop, hd, advanceCount, Nat.mod_eq_of_lt h]
  | cons line lines ih =>
    obtain ⟨it, hit, hlen, hturn, hdone⟩ := loopBody_turn g line h
    have hnq : it.done = false := by
      cases hdn : it.done
      · rfl
      · exact absurd (hdone.1 hdn) (hq line (List.mem_cons_self _ _))
    have hpos : 0 < g.g_doors.length := Nat.lt_of_le_of_lt (Nat.zero_le _) h
    have hin : it.globals.g_turn < it.globals.g_doors.length := by
      rw [hlen, hturn]
      split
      · exact Nat.mod_lt _ hpos
      · exact h
    obtain ⟨r, hr, hrd, hrl, hrt⟩ :=
      ih it.globals hin (fun l hl => hq l (List.mem_cons_of_mem _ hl))
    refine ⟨{ r with trace := it.trace ++ r.trace }, ?_, hrd, ?_, ?_⟩
    · simp [commandLoop, hit, hnq, hr]
    · simpa [hlen] using hrl
    · show r.globals.g_turn = _
      rw [hrt, hlen, hturn]
      by_cases hn : nextDoor line.input = true
      · simp [advanceCount, List.filter_cons, hn, Nat.add_assoc, Nat.add_comm 1]
      · simp [advanceCount, List.filter_cons, hn]

/-- On a line that neither quits nor is a pass-through without a name, the loop
advances the cursor exactly when the spec counts the line as accepted. -/
theorem nextDoor_eq_accepted (input : String)
    (hq : input.data.head? ≠ some 'q') (hp : namelessPassThrough input = false) :
    nextDoor input = acceptedCommand input := by
  unfold nextDoor acceptedCommand
  unfold namelessPassThrough at hp
  rcases hdata : input.data with _ | ⟨cmd, rest⟩
  · rfl
  · rw [hdata] at hq hp
    have hq1 : cmd ≠ 'q' := by simpa using hq
    by_cases hcp : cmd = 'p'
    · subst hcp
      cases hf : find_first_not_of input " \t" 1 <;> simp_all
    · simp [hq1, hcp]

/-- The round-robin invariant on lines that neither quit nor are a pass-through
without a name: from turn 0 with N >= 1 doors the loop returns and leaves the
cursor at K mod N, K being the number of accepted commands. -/
theorem round_robin_named (doors : List Door) (lines : List StdinLine)
    (hN : 0 < doors.length)
    (hq : ∀ l ∈ lines, l.input.data.head? ≠ some 'q')
    (hp : ∀ l ∈ lines, namelessPassThrough l.input = false) :
    ∃ it, commandLoop ⟨doors, 0⟩ lines = some it ∧
      it.globals.g_doors.length = doors.length ∧
      it.globals.g_turn = acceptedCount lines % doors.length := by
  obtain ⟨it, h1, _, h3, h4⟩ := commandLoop_turn ⟨doors, 0⟩ lines hN hq
  refine ⟨it, h1, h3, ?_⟩
  have hcount : advanceCount lines = acceptedCount lines := by
    unfold advanceCount acceptedCount
    congr 1
    apply List.filter_congr
    intro l hl
    exact nextDoor_eq_accepted l.input (hq l hl) (hp l hl)
  simpa [hcount] using h4

/-! ## The pass-through event -/

/-- Claim C14: for every door state and every actor identifier, announcing a
pass-through (through the tracing wrapper `Door::PersonPassThrough` or through
the signal emitter the command loop calls) emits exactly one event carrying that
identifier, whether the door is open or closed, leaves the whole door (so
`isOpen` and the location) unchanged, and produces no reply and no state-change
notification: the event is its only bus effect. -/
theorem passThrough_effects (d : Door) (who : String) :
    (d.PersonPassThrough who).1 = d ∧
    busEffects (d.PersonPassThrough who).2 = [.PersonPassedThrough d.path who] ∧
    passThroughs (d.PersonPassThrough who).2 = [who] ∧
    replies (d.PersonPassThrough who).2 = [] ∧
    notifications (d.PersonPassThrough who).2 = [] ∧
    (d.PersonPassedThrough who).1 = d ∧
    busEffects (d.PersonPassedThrough who).2 = [.PersonPassedThrough d.path who] ∧
    passThroughs (d.PersonPassedThrough who).2 = [who] ∧
    replies (d.PersonPassedThrough who).2 = [] ∧
    notifications (d.PersonPassedThrough who).2 = [] :=
  ⟨rfl, rfl, rfl, rfl, rfl, rfl, rfl, rfl, rfl, rfl⟩

/-! ## The Garage and Lobby scenario -/

/-- Claim C12: after bootstrap with the locations Garage and Lobby, both
announced (two closed, registered doors, turn 0), the line "f" flips Garage from
closed to open with exactly one notification and turn becomes 1; then "p Alice"
emits one pass-through event for "Alice" on Lobby and turn becomes 0; then "r"
retracts Garage from the bus and turn becomes 1; then "q" ends the loop and the
exit status is 0. -/
theorem garage_lobby_scenario :
    (main goodBus scenarioArgv []).map (fun r => (r.exit, r.globals)) =
      some (none, ⟨[garage, lobby], 0⟩) ∧
    (main goodBus scenarioArgv [okLine "f"]).map
        (fun r => (r.exit, r.globals, notifications r.trace)) =
      some (none, ⟨[garageOpen, lobby], 1⟩, [true]) ∧
    (main goodBus scenarioArgv [okLine "f", okLine "p Alice"]).map
        (fun r => (r.exit, r.globals, busEffects r.trace)) =
      some (none, ⟨[garageOpen, lobby], 0⟩,
        [.PutOnBus garage.path, .PutOnBus lobby.path, .Update garage.path true,
         .PersonPassedThrough lobby.path "Alice"]) ∧
    (main goodBus scenarioArgv [okLine "f", okLine "p Alice", okLine "r"]).map
        (fun r => (r.exit, r.globals, registrationCalls r.trace)) =
      some (none, ⟨[{ garageOpen with state := .UNPUBLISHED }, lobby], 1⟩,
        [.PutOnBus garage.path, .PutOnBus lobby.path, .RemoveFromBus garage.path]) ∧
    (main goodBus scenarioArgv [okLine "f", okLine "p Alice", okLine "r", okLine "q"]).map
        (fun r => (r.exit, r.globals.g_doors, busEffects r.trace)) =
      some (some EXIT_SUCCESS, [{ garageOpen with state := .UNPUBLISHED }, lobby],
        [.PutOnBus garage.path, .PutOnBus lobby.path, .Update garage.path true,
         .PersonPassedThrough lobby.path "Alice", .RemoveFromBus garage.path]) ∧
    EXIT_SUCCESS = 0 := by
  refine ⟨?_, ?_, ?_, ?_, ?_, rfl⟩ <;> decide

/-! ## The name of a pass-through -/

/-- The search skips a run of characters of the set and stops at the first
character outside it. -/
theorem find_first_not_of_from_skip (chars ws : List Char) (t0 : Char) (rest : List Char)
    (pos i : Nat) (hpos : pos ≤ i) (hws : ∀ c ∈ ws, c ∈ chars) (ht : t0 ∉ chars) :
    find_first_not_of_from chars (ws ++ t0 :: rest) pos i = some (i + ws.length) := by
  induction ws generalizing i with
  | nil => simp [find_first_not_of_from, hpos, ht]
  | cons w ws ih =>
    have hw : w ∈ chars := hws w (List.mem_cons_self _ _)
    have h1 := ih (i + 1) (Nat.le_succ_of_le hpos) (fun c hc => hws c (List.mem_cons_of_mem _ hc))
    simp [find_first_not_of_from, hw, h1]
    omega

/-- Storing back the door that is already there leaves the registry as it is. -/
theorem set_lookup_self (l : List Door) (i : Nat) (d : Door) (h : l[i]? = some d) :
    l.set i d = l := by
  apply List.ext_getElem?
  intro j
  by_cases hj : i = j
  · subst hj
    rw [List.getElem?_set_self', h]
    simp
  · rw [List.getElem?_set_ne hj]

/-- A string without a NUL survives `c_str()` whole. -/
theorem c_str_of_no_nul (s : String) (h : Char.ofNat 0 ∉ s.data) : c_str s = s := by
  unfold c_str
  have : s.data.takeWhile (fun c => decide (c ≠ Char.ofNat 0)) = s.data := by
    rw [List.takeWhile_eq_self_iff]
    intro x hx
    simp only [decide_eq_true_eq]
    intro hx0
    exact h (hx0 ▸ hx)
  rw [this]

/-- Claim C13, as stated, fails on a name with a NUL in it: the loop passes
`who.c_str()`, so the line "p A", NUL, "B" announces "A", not the whole text. -/
theorem passthrough_name_cut_at_nul :
    (loopBody ⟨[garage, lobby], 0⟩ (okLine "p A\x00B")).map (fun it => passThroughs it.trace) =
      some ["A"] ∧
    (loopBody ⟨[garage, lobby], 0⟩ (okLine "p A\x00B")).map (fun it => passThroughs it.trace) ≠
      some ["A\x00B"] := by
  decide

/-- Claim C13, amended: for every input line made of the letter `p`, a run of
spaces and tabs (empty or not), and then a text whose first character is neither
a space nor a tab, the dispatcher emits exactly one pass-through event, on the current door,
and its payload is that text up to its first NUL character: the whole remainder
of the line after the first run of whitespace (internal and trailing whitespace
included) when the text holds no NUL. -/
theorem named_passthrough_payload (g : Globals) (d : Door) (line : StdinLine) (ws : List Char)
    (t0 : Char) (rest : List Char)
    (hd : g.g_doors[g.g_turn]? = some d)
    (hl : line.input.data = 'p' :: (ws ++ t0 :: rest))
    (hws : ∀ c ∈ ws, c = ' ' ∨ c = '\t') (ht : t0 ≠ ' ' ∧ t0 ≠ '\t') :
    ∃ it, loopBody g line = some it ∧
      busEffects it.trace = [.PersonPassedThrough d.path (c_str ⟨t0 :: rest⟩)] ∧
      passThroughs it.trace = [c_str ⟨t0 :: rest⟩] ∧
      (Char.ofNat 0 ∉ t0 :: rest → passThroughs it.trace = [⟨t0 :: rest⟩]) := by
  have hfind : find_first_not_of line.input " \t" 1 = some (1 + ws.length) := by
    unfold find_first_not_of
    rw [hl]
    have h := find_first_not_of_from_skip " \t".data ws t0 rest 1 1 (Nat.le_refl 1)
      (fun c hc => by rcases hws c hc with h | h <;> simp [h]) (by simp [ht.1, ht.2])
    simpa [find_first_not_of_from] using h
  have hsub : substr line.input (1 + ws.length) = ⟨t0 :: rest⟩ := by
    unfold substr
    rw [hl, Nat.add_comm]
    simp
  refine ⟨_, by simp [loopBody, hd, hl, hfind, hsub]; rfl, ?_, ?_, ?_⟩
  · simp [busEffects, Effect.isBus, Door.PersonPassedThrough]
  · simp [passThroughs, Effect.passThrough?, Door.PersonPassedThrough]
  · intro h
    simp [passThroughs, Effect.passThrough?, Door.PersonPassedThrough]
    exact c_str_of_no_nul ⟨t0 :: rest⟩ h

/-- Witness of `named_passthrough_payload`: the line "p  Alice B " on Garage. -/
theorem named_passthrough_payload_witness :
    ∃ it, loopBody ⟨[garage, lobby], 0⟩ (okLine "p  Alice B ") = some it ∧
      passThroughs it.trace = ["Alice B "] := by
  obtain ⟨it, h1, _, _, h4⟩ :=
    named_passthrough_payload ⟨[garage, lobby], 0⟩ garage (okLine "p  Alice B ")
      [' ', ' '] 'A' "lice B ".data rfl rfl (by decide) (by decide)
  exact ⟨it, h1, h4 (by decide)⟩

/-! ## One line of input -/

/-- Claim C19: the first character of a non-empty line alone decides its
command.  For a first character other than `p` the loop body does on the line
exactly what it does on the one-character line (same doors, cursor, termination
and trace).  For `p` the doors, the cursor and termination are those of the line
"p", and the rest of the line only decides the trace: after the prompt, the help
text if no name is found and otherwise the pass-through event with the name
extracted.  So "quit" quits, "flip" flips, and "pass Bob" announces "ass Bob". -/
theorem first_character_decides (g : Globals) (s : QStatus) (cmd : Char) (rest : List Char) :
    (cmd ≠ 'p' → loopBody g ⟨⟨cmd :: rest⟩, s⟩ = loopBody g ⟨⟨[cmd]⟩, s⟩) ∧
    (loopBody g ⟨⟨'p' :: rest⟩, s⟩).map (fun it => (it.globals, it.done)) =
      (loopBody g ⟨⟨['p']⟩, s⟩).map (fun it => (it.globals, it.done)) ∧
    (∀ d, g.g_doors[g.g_turn]? = some d →
      (loopBody g ⟨⟨'p' :: rest⟩, s⟩).map (fun it => it.trace) =
        some ([Effect.cout ("[next up is " ++ c_str d.GetLocation ++ "] >")] ++
          match find_first_not_of ⟨'p' :: rest⟩ " \t" 1 with
          | none => help
          | some whopos =>
            [.PersonPassedThrough d.path (c_str (substr ⟨'p' :: rest⟩ whopos))])) ∧
    (loopBody ⟨[garage, lobby], 0⟩ (okLine "quit")).map (fun it => it.done) = some true ∧
    (loopBody ⟨[garage, lobby], 0⟩ (okLine "flip")).map (fun it => it.globals) =
      some ⟨[garageOpen, lobby], 1⟩ ∧
    (loopBody ⟨[garage, lobby], 0⟩ (okLine "pass Bob")).map (fun it => passThroughs it.trace) =
      some ["ass Bob"] := by
  refine ⟨?_, ?_, ?_, by decide, by decide, by decide⟩
  · intro hp
    simp [loopBody, hp]
  · cases hd : g.g_doors[g.g_turn]? with
    | none => simp [loopBody, hd]
    | some d =>
      have h1 : find_first_not_of ⟨['p']⟩ " \t" 1 = none := by decide
      cases hf : find_first_not_of ⟨'p' :: rest⟩ " \t" 1 with
      | none => simp [loopBody, hd, hf, h1]
      | some whopos =>
        simp [loopBody, hd, hf, h1, Door.PersonPassedThrough, set_lookup_self _ _ _ hd]
  · intro d hd
    cases hf : find_first_not_of ⟨'p' :: rest⟩ " \t" 1 with
    | none => simp [loopBody, hd, hf]
    | some whopos => simp [loopBody, hd, hf, Door.PersonPassedThrough]

/-- Witness of `first_character_decides`: the line "quit" against the line "q". -/
theorem first_character_decides_witness :
    'q' ≠ 'p' ∧
    loopBody ⟨[garage, lobby], 0⟩ (okLine "quit") = loopBody ⟨[garage, lobby], 0⟩ (okLine "q") :=
  ⟨by decide,
   (first_character_decides ⟨[garage, lobby], 0⟩ .ER_OK 'q' ['u', 'i', 't']).1 (by decide)⟩

/-! ## The cursor stays in range -/

/-- The loop on any lines with the cursor in range: it returns, the number of
doors is kept and the cursor is in range at the end. -/
theorem commandLoop_in_range (g : Globals) (lines : List StdinLine)
    (h : g.g_turn < g.g_doors.length) :
    ∃ it, commandLoop g lines = some it ∧
      it.globals.g_doors.length = g.g_doors.length ∧
      it.globals.g_turn < it.globals.g_doors.length := by
  induction lines generalizing g with
  | nil =>
    have hd : g.g_doors[g.g_turn]? = some (g.g_doors[g.g_turn]) := List.getElem?_eq_getElem h
    exact ⟨_, by simp [commandLoop, hd]; rfl, rfl, h⟩
  | cons line lines ih =>
    obtain ⟨it, hit, hlen, hturn, _⟩ := loopBody_turn g line h
    have hpos : 0 < g.g_doors.length := Nat.lt_of_le_of_lt (Nat.zero_le _) h
    have hin : it.globals.g_turn < it.globals.g_doors.length := by
      rw [hlen, hturn]
      split
      · exact Nat.mod_lt _ hpos
      · exact h
    cases hdone : it.done with
    | true => exact ⟨it, by simp [commandLoop, hit, hdone], hlen, hin⟩
    | false =>
      obtain ⟨r, hr, hrl, hrt⟩ := ih it.globals hin
      exact ⟨{ r with trace := it.trace ++ r.trace }, by simp [commandLoop, hit, hdone, hr],
        by simpa [hlen] using hrl, hrt⟩

/-- Claim C17: the command loop started with N >= 1 doors and turn 0 returns on
every finite sequence of lines (no lookup `g_doors[g_turn]` on the way is out of
range), and in the state it reaches the number of doors is still N, which is not
zero, and the cursor is below it, so the next lookup is in range too.  And
`main` enters the loop only with a non-empty registry and turn 0: it never
performs an out-of-range lookup, and unless it exits with failure the cursor is
in range at the end. -/
theorem cursor_in_range (doors : List Door) (lines : List StdinLine) (bus : Bus)
    (argv : List String) (stdin : List StdinLine) :
    (0 < doors.length →
      ∃ it, commandLoop ⟨doors, 0⟩ lines = some it ∧
        it.globals.g_doors.length = doors.length ∧
        it.globals.g_turn < it.globals.g_doors.length ∧
        it.globals.g_doors.length ≠ 0 ∧
        ∃ d, it.globals.g_doors[it.globals.g_turn]? = some d) ∧
    (∃ r, main bus argv stdin = some r ∧
      (r.exit ≠ some EXIT_FAILURE →
        r.globals.g_doors ≠ [] ∧ r.globals.g_turn < r.globals.g_doors.length)) := by
  constructor
  · intro hN
    obtain ⟨it, h1, h2, h3⟩ := commandLoop_in_range ⟨doors, 0⟩ lines hN
    exact ⟨it, h1, h2, h3, by omega, _, List.getElem?_eq_getElem h3⟩
  · by_cases hc : bus.connection = .ER_OK
    swap
    · exact ⟨_, by simp [main, hc]; rfl, by simp⟩
    by_cases ha : argv.length = 1
    · exact ⟨_, by simp [main, hc, ha]; rfl, by simp⟩
    cases hb : (bootstrapLoop bus 1 argv.tail []).1 with
    | nil => exact ⟨_, by simp [main, hc, ha, hb]; rfl, by simp⟩
    | cons a l =>
      obtain ⟨it, h1, h2, h3⟩ := commandLoop_in_range ⟨a :: l, 0⟩ stdin (by simp)
      refine ⟨_, by simp [main, hc, ha, hb, h1]; rfl, ?_⟩
      intro _
      refine ⟨?_, h3⟩
      intro hnil
      simp only at hnil
      rw [hnil] at h3
      simp at h3

/-- Witness of `cursor_in_range`: two doors and the lines "f" and "p". -/
theorem cursor_in_range_witness :
    0 < [garage, lobby].length ∧
    ∃ it, commandLoop ⟨[garage, lobby], 0⟩ [okLine "f", okLine "p"] = some it ∧
      it.globals.g_turn < it.globals.g_doors.length := by
  refine ⟨by decide, ?_⟩
  obtain ⟨it, h1, _, h3, _⟩ :=
    (cursor_in_range [garage, lobby] [okLine "f", okLine "p"] goodBus scenarioArgv []).1
      (by decide)
  exact ⟨it, h1, h3⟩

/-! ## Failures of the bus -/

/-- Claim C15, as stated, fails for Retract: on the registered Garage door the
line "r" calls `RemoveFromBus()` and drops its status, so when the bus refuses
the call nothing is reported, on either output stream; the loop does go on. -/
theorem retract_failure_not_reported :
    garage.state = .REGISTERED ∧
    (loopBody ⟨[garage, lobby], 0⟩ (failLine "r")).map
        (fun it => (it.globals.g_doors, it.done, it.trace)) =
      some ([garage, lobby], false,
        [.cout "[next up is Garage] >", .RemoveFromBus garage.path]) ∧
    (loopBody ⟨[garage, lobby], 0⟩ (failLine "r")).map (fun it => stderrLog it.trace) =
      some [] := by
  decide

/-- Claim C15, amended: on every dispatcher state whose cursor selects a door,
when the bus call made by the reattach command fails, the failure is reported
to the operator if the call was Publish (`UpdateAll()`, door not REGISTERED),
one message on standard error, and is not reported if the call was Retract
(`RemoveFromBus()`, door REGISTERED), whose status the dispatcher does not
inspect; in both cases the failure is not fatal: the loop is not done, and it
goes on to read the remaining lines from a state whose cursor is in range. -/
theorem reattach_failure_not_fatal (g : Globals) (d : Door) (line : StdinLine) (rest : List Char)
    (lines : List StdinLine)
    (hd : g.g_doors[g.g_turn]? = some d) (hr : line.input.data = 'r' :: rest)
    (hfail : line.busStatus ≠ .ER_OK) :
    ∃ it, loopBody g line = some it ∧
      it.done = false ∧
      (d.state ≠ .REGISTERED →
        registrationCalls it.trace = [.UpdateAll d.path] ∧
        stderrLog it.trace = ["Failed to completely remove door !\n"]) ∧
      (d.state = .REGISTERED →
        registrationCalls it.trace = [.RemoveFromBus d.path] ∧
        stderrLog it.trace = []) ∧
      ∃ r, commandLoop it.globals lines = some r ∧
        commandLoop g (line :: lines) = some { r with trace := it.trace ++ r.trace } := by
  have hlt : g.g_turn < g.g_doors.length := by
    rcases List.getElem?_eq_some.1 hd with ⟨h, _⟩
    exact h
  obtain ⟨it, hit, hlen, hturn, hdone⟩ := loopBody_turn g line hlt
  have hnd : it.done = false := by
    cases hdn : it.done
    · rfl
    · have := hdone.1 hdn
      rw [hr] at this
      simp at this
  have hin : it.globals.g_turn < it.globals.g_doors.length := by
    rw [hlen, hturn]
    split
    · exact Nat.mod_lt _ (Nat.lt_of_le_of_lt (Nat.zero_le _) hlt)
    · exact hlt
  obtain ⟨r, hr1, _, _⟩ := commandLoop_in_range it.globals lines hin
  refine ⟨it, hit, hnd, ?_, ?_, r, hr1, by simp [commandLoop, hit, hnd, hr1]⟩
  · intro hs
    simp [loopBody, hd, hr, hs, hfail] at hit
    subst hit
    simp [registrationCalls, stderrLog, Effect.isRegistration]
  · intro hs
    simp [loopBody, hd, hr, hs] at hit
    subst hit
    simp [registrationCalls, stderrLog, Effect.isRegistration]

/-- Witness of `reattach_failure_not_fatal`: the line "r" on an unpublished
door while the bus refuses the call. -/
theorem reattach_failure_not_fatal_witness :
    (⟨[Door.new "Garage" false "/Door/1"], 0⟩ : Globals).g_doors[0]? =
      some (Door.new "Garage" false "/Door/1") ∧
    (failLine "r").busStatus ≠ .ER_OK ∧
    ∃ it, loopBody ⟨[Door.new "Garage" false "/Door/1"], 0⟩ (failLine "r") = some it ∧
      it.done = false ∧
      stderrLog it.trace = ["Failed to completely remove door !\n"] := by
  refine ⟨rfl, by decide, ?_⟩
  obtain ⟨it, h1, h2, h3, _⟩ :=
    reattach_failure_not_fatal ⟨[Door.new "Garage" false "/Door/1"], 0⟩
      (Door.new "Garage" false "/Door/1") (failLine "r") [] [] rfl rfl (by decide)
  exact ⟨it, h1, h2, (h3 (by decide)).2⟩

/-- No door is kept when no door constructs. -/
theorem constructedDoors_nil (bus : Bus) (i : Nat) (args : List String)
    (h : ∀ k, bus.doorStatus k ≠ .ER_OK) : constructedDoors bus i args = [] := by
  unfold constructedDoors
  induction args generalizing i with
  | nil => rfl
  | cons a args ih => simp [List.enumFrom_cons, h i, ih (i + 1)]

/-- Claim C16, as stated, fails twice.  When the only door constructs but cannot
be announced, the spec's active set is empty, yet `main` enters the command loop
with that door and a later `q` ends the process with success.  And when zero
locations are given on a bus connection that is not initialized, `main` exits
with the connection message, not with the usage message. -/
theorem unannounced_doors_enter_loop :
    (main deafBus ["door_provider", "Garage"] [okLine "q"]).map (fun r => r.exit) =
      some (some EXIT_SUCCESS) ∧
    (main deafBus ["door_provider", "Garage"] []).map (fun r => (r.exit, r.globals)) =
      some (none, ⟨[Door.new "Garage" false "/Door/1"], 0⟩) ∧
    activeSetPerSpec deafBus 1 ["Garage"] = [] ∧
    (main downBus ["door_provider"] []).map (fun r => (r.exit, r.trace)) =
      some (some EXIT_FAILURE, [.cerr "Bus Connection not correctly initialized !!!\n"]) := by
  decide

/-- The run of `main` on a command line that starts with the program name. -/
theorem main_of_program_name (bus : Bus) (prog : String) (locations : List String)
    (stdin : List StdinLine) :
    ∃ r, main bus (prog :: locations) stdin = some r ∧
      (r.exit = some EXIT_FAILURE ↔ r.globals.g_doors = []) ∧
      (r.exit = some EXIT_FAILURE ↔
        (bus.connection ≠ .ER_OK ∨ constructedDoors bus 1 locations = [])) ∧
      (bus.connection ≠ .ER_OK →
        r.exit = some EXIT_FAILURE ∧ r.globals.g_doors = [] ∧
        r.trace = [.cerr "Bus Connection not correctly initialized !!!\n"]) ∧
      (bus.connection = .ER_OK → locations = [] →
        r.exit = some EXIT_FAILURE ∧ r.globals.g_doors = [] ∧
        r.trace = [.cerr ("Usage: " ++ prog ++
          " location1 [location2 [... [locationN] ...]]\n")]) ∧
      (bus.connection = .ER_OK → locations ≠ [] → constructedDoors bus 1 locations = [] →
        r.exit = some EXIT_FAILURE ∧
        r.trace = (bootstrapLoop bus 1 locations []).2 ++ [.cerr "No doors available\n"]) ∧
      ((∀ k, bus.doorStatus k ≠ .ER_OK) → r.exit = some EXIT_FAILURE) ∧
      (bus.connection = .ER_OK → constructedDoors bus 1 locations ≠ [] →
        ∃ it, commandLoop ⟨constructedDoors bus 1 locations, 0⟩ stdin = some it ∧
          r.exit = (if it.done then some EXIT_SUCCESS else none) ∧
          r.globals = it.globals) := by
  have hboot : (bootstrapLoop bus 1 locations []).1 = constructedDoors bus 1 locations := by
    simpa using (bootstrapLoop_spec bus 1 locations []).1
  by_cases hc : bus.connection = .ER_OK
  swap
  · exact ⟨_, by simp [main, hc]; rfl, by simp, by simp [hc], by simp, by simp [hc],
      by simp [hc], by simp, by simp [hc]⟩
  cases hl : locations with
  | nil =>
    exact ⟨_, by simp [main, hc]; rfl, by simp, by simp [constructedDoors], by simp [hc],
      by simp, by simp, by simp, by simp [constructedDoors]⟩
  | cons a l =>
    rw [← hl]
    have hlen : locations ≠ [] := by simp [hl]
    cases hb : constructedDoors bus 1 locations with
    | nil =>
      rw [hb] at hboot
      refine ⟨_, by simp [main, hc, hlen, hboot]; rfl, by simp [hboot], by simp,
        by simp [hc], by simp [hl], by simp, by simp, by simp⟩
    | cons d ds =>
      rw [hb] at hboot
      obtain ⟨it, h1, h2, h3⟩ := commandLoop_in_range ⟨d :: ds, 0⟩ stdin (by simp)
      have hne : it.globals.g_doors ≠ [] := by
        intro hnil
        rw [hnil] at h3
        simp at h3
      have hex : (if it.done = true then some EXIT_SUCCESS else none) ≠ some EXIT_FAILURE := by
        cases it.done <;> simp [EXIT_SUCCESS, EXIT_FAILURE]
      refine ⟨_, by simp [main, hc, hlen, hboot, h1]; rfl, by simp [hne, hex],
        by simp [hc, hex], by simp [hc], by simp [hl], by simp, ?_, ?_⟩
      · intro hall
        have := constructedDoors_nil bus 1 locations hall
        rw [hb] at this
        simp at this
      · intro _ _
        exact ⟨it, h1, rfl, rfl⟩

/-- Claim C16, amended: on every command line, `main` ends with a failure status
exactly when the registry it built is empty, which is when the bus connection is
not initialized or no door constructed.  When the bus connection is not
initialized it exits with failure and the connection message, whatever the
arguments.  Otherwise: when zero locations are given after the program name
(`argc == 1`) it exits with failure, the usage message and no door constructed;
when `argc` is not 1 and no door constructs (every door given fails to
construct, or `argv` is empty) it exits with failure after the message that no
doors are available; and in every other case (also when every door constructs
but fails to publish) it enters the command loop on the doors that constructed,
with turn 0. -/
theorem bootstrap_exit_status (bus : Bus) (argv : List String) (stdin : List StdinLine) :
    ∃ r, main bus argv stdin = some r ∧
      (r.exit = some EXIT_FAILURE ↔ r.globals.g_doors = []) ∧
      (r.exit = some EXIT_FAILURE ↔
        (bus.connection ≠ .ER_OK ∨ constructedDoors bus 1 (argv.drop 1) = [])) ∧
      (bus.connection ≠ .ER_OK →
        r.exit = some EXIT_FAILURE ∧ r.globals.g_doors = [] ∧
        r.trace = [.cerr "Bus Connection not correctly initialized !!!\n"]) ∧
      (bus.connection = .ER_OK → ∀ prog, argv = [prog] →
        r.exit = some EXIT_FAILURE ∧ r.globals.g_doors = [] ∧
        r.trace = [.cerr ("Usage: " ++ prog ++
          " location1 [location2 [... [locationN] ...]]\n")]) ∧
      (bus.connection = .ER_OK → argv.length ≠ 1 →
        constructedDoors bus 1 (argv.drop 1) = [] →
        r.exit = some EXIT_FAILURE ∧
        r.trace = (bootstrapLoop bus 1 (argv.drop 1) []).2 ++
          [.cerr "No doors available\n"]) ∧
      ((∀ k, bus.doorStatus k ≠ .ER_OK) → r.exit = some EXIT_FAILURE) ∧
      (bus.connection = .ER_OK → constructedDoors bus 1 (argv.drop 1) ≠ [] →
        ∃ it, commandLoop ⟨constructedDoors bus 1 (argv.drop 1), 0⟩ stdin = some it ∧
          r.exit = (if it.done then some EXIT_SUCCESS else none) ∧
          r.globals = it.globals) := by
  cases argv with
  | nil =>
    by_cases hc : bus.connection = .ER_OK
    · exact ⟨_, by simp [main, hc, bootstrapLoop]; rfl, by simp,
        by simp [constructedDoors], by simp [hc], by simp,
        by simp [bootstrapLoop], by simp, by simp [constructedDoors]⟩
    · exact ⟨_, by simp [main, hc]; rfl, by simp, by simp [hc], by simp, by simp [hc],
        by simp [hc], by simp, by simp [hc]⟩
  | cons prog locations =>
    obtain ⟨r, h1, h2, h3, h4, h5, h6, h7, h8⟩ :=
      main_of_program_name bus prog locations stdin
    refine ⟨r, h1, h2, by simpa using h3, h4, ?_, ?_, h7, by simpa using h8⟩
    · intro hc p hp
      simp only [List.cons.injEq] at hp
      obtain ⟨hp1, hp2⟩ := hp
      subst hp1
      exact h5 hc hp2
    · intro hc hlen hnil
      have hne : locations ≠ [] := by
        intro h
        simp [h] at hlen
      simpa using h6 hc hne (by simpa using hnil)

/-- Witness of `bootstrap_exit_status`: the program name alone on a bus that
works, and two locations with a `q` on a bus that refuses every announcement. -/
theorem bootstrap_exit_status_witness :
    (goodBus.connection = .ER_OK ∧
      ∃ r, main goodBus ["door_provider"] [] = some r ∧
        r.exit = some EXIT_FAILURE ∧
        r.trace = [.cerr ("Usage: " ++ "door_provider" ++
          " location1 [location2 [... [locationN] ...]]\n")]) ∧
    (deafBus.connection = .ER_OK ∧
      constructedDoors deafBus 1 (["door_provider", "Garage", "Lobby"].drop 1) ≠ [] ∧
      ∃ r, main deafBus ["door_provider", "Garage", "Lobby"] [okLine "q"] = some r ∧
        (r.exit = some EXIT_FAILURE ↔ r.globals.g_doors = []) ∧
        ∃ it, commandLoop
            ⟨constructedDoors deafBus 1 (["door_provider", "Garage", "Lobby"].drop 1), 0⟩
            [okLine "q"] = some it ∧
          r.exit = (if it.done then some EXIT_SUCCESS else none)) := by
  refine ⟨⟨rfl, ?_⟩, ⟨rfl, by decide, ?_⟩⟩
  · obtain ⟨r, h1, _, _, _, h5, _⟩ := bootstrap_exit_status goodBus ["door_provider"] []
    exact ⟨r, h1, (h5 rfl "door_provider" rfl).1, (h5 rfl "door_provider" rfl).2.2⟩
  · obtain ⟨r, h1, h2, _, _, _, _, _, h8⟩ :=
      bootstrap_exit_status deafBus ["door_provider", "Garage", "Lobby"] [okLine "q"]
    obtain ⟨it, h9, h10, _⟩ := h8 rfl (by decide)
    exact ⟨r, h1, h2, it, h9, h10⟩

/-! ## Door paths -/

/-- A digit below ten prints as the character with that value. -/
theorem digitChar_value (k : Nat) (h : k < 10) :
    (Nat.digitChar k).toNat - 48 = k ∧ (Nat.digitChar k).isDigit = true := by
  interval_cases k <;> decide

/-- The value of a digit string with one more digit at the end. -/
theorem decimalValue_snoc (pre : List Char) (c : Char) :
    decimalValue (pre ++ [c]) = 10 * decimalValue pre + (c.toNat - 48) := by
  simp [decimalValue, List.foldl_append]

/-- With enough fuel, the digit loop puts before the accumulator a string of
decimal digits whose value is the number. -/
theorem toDigitsCore_value (fuel n : Nat) (ds : List Char) (h : n < fuel) :
    ∃ pre, Nat.toDigitsCore 10 fuel n ds = pre ++ ds ∧ decimalValue pre = n ∧
      ∀ c ∈ pre, c.isDigit = true := by
  induction fuel generalizing n ds with
  | zero => omega
  | succ fuel ih =>
    have hd := digitChar_value (n % 10) (Nat.mod_lt _ (by decide))
    simp only [Nat.toDigitsCore]
    by_cases hz : n / 10 = 0
    · refine ⟨[Nat.digitChar (n % 10)], by simp [hz], ?_, ?_⟩
      · have := decimalValue_snoc [] (Nat.digitChar (n % 10))
        simp only [List.nil_append] at this
        rw [this, hd.1]
        simp [decimalValue]
        omega
      · intro c hc
        simp only [List.mem_singleton] at hc
        rw [hc]
        exact hd.2
    · obtain ⟨pre, h1, h2, h3⟩ := ih (n / 10) (Nat.digitChar (n % 10) :: ds) (by omega)
      refine ⟨pre ++ [Nat.digitChar (n % 10)], by simp [hz, h1], ?_, ?_⟩
      · rw [decimalValue_snoc, h2, hd.1]
        omega
      · intro c hc
        rcases List.mem_append.1 hc with hc | hc
        · exact h3 c hc
        · simp only [List.mem_singleton] at hc
          rw [hc]
          exact hd.2

/-- The string of a number is made of decimal digits and its value is the
number. -/
theorem toString_decimal (k : Nat) :
    decimalValue (toString k).data = k ∧ ∀ c ∈ (toString k).data, c.isDigit = true := by
  obtain ⟨pre, h1, h2, h3⟩ := toDigitsCore_value (k + 1) k [] (Nat.lt_succ_self k)
  have hdata : (toString k).data = pre := by
    show (Nat.toDigits 10 k).asString.data = pre
    simpa [Nat.toDigits, List.asString] using h1
  rw [hdata]
  exact ⟨h2, h3⟩

/-- Different indices give different paths. -/
theorem door_path_injective :
    Function.Injective (fun k : Nat => "/Door/" ++ toString k) := by
  intro a b hab
  have h1 : (toString a).data = (toString b).data := by
    have := congrArg String.data hab
    simpa using this
  rw [← (toString_decimal a).1, ← (toString_decimal b).1, h1]

/-- Publishing leaves the location of a door as it is. -/
theorem published_location (d : Door) (s : QStatus) :
    (d.published s).location = d.location := by
  unfold Door.published
  split <;> rfl

/-- The locations and paths of the doors kept, read off the numbered input. -/
theorem constructedDoors_paths (bus : Bus) (i : Nat) (args : List String) :
    (constructedDoors bus i args).map (fun d => (d.location, d.path)) =
      ((args.enumFrom i).filter (fun a => bus.doorStatus a.1 = .ER_OK)).map
        (fun a => (a.2, "/Door/" ++ toString a.1)) := by
  unfold constructedDoors
  induction args generalizing i with
  | nil => rfl
  | cons arg args ih =>
    by_cases hc : bus.doorStatus i = .ER_OK
    · have hn1 : ∀ l o p, (Door.new l o p).location = l := fun _ _ _ => rfl
      have hn2 : ∀ l o p, (Door.new l o p).path = p := fun _ _ _ => rfl
      simp [List.enumFrom_cons, hc, ih (i + 1), published_path, published_location, hn1, hn2]
    · simp [List.enumFrom_cons, hc, ih (i + 1)]

/-- The paths of the doors kept are pairwise distinct. -/
theorem constructedDoors_nodup (bus : Bus) (i : Nat) (args : List String) :
    ((constructedDoors bus i args).map Door.path).Nodup := by
  have h := congrArg (List.map Prod.snd) (constructedDoors_paths bus i args)
  simp only [List.map_map] at h
  have h2 : (constructedDoors bus i args).map Door.path =
      (((args.enumFrom i).filter (fun a => bus.doorStatus a.1 = .ER_OK)).map Prod.fst).map
        (fun k : Nat => "/Door/" ++ toString k) := by
    simpa [Function.comp_def] using h
  rw [h2]
  apply List.Nodup.map door_path_injective
  have hsub : (((args.enumFrom i).filter (fun a => bus.doorStatus a.1 = .ER_OK)).map Prod.fst).Sublist
      ((args.enumFrom i).map Prod.fst) := List.Sublist.map _ (List.filter_sublist _)
  apply List.Nodup.sublist hsub
  rw [List.enumFrom_map_fst]
  exact List.nodup_range' _ _

/-- Claim C18: for every list of locations, the registry lists, in input order,
the locations whose door constructed, each with the path "/Door/" followed by
the string of its position k in the input (counted from 1), whatever happened
to the doors before it; that string is made of decimal digits and its value is
k; and the paths of the doors in the registry are pairwise distinct. -/
theorem door_paths (bus : Bus) (locations : List String) :
    (bootstrapLoop bus 1 locations []).1.map (fun d => (d.location, d.path)) =
      ((locations.enumFrom 1).filter (fun a => bus.doorStatus a.1 = .ER_OK)).map
        (fun a => (a.2, "/Door/" ++ toString a.1)) ∧
    (∀ d ∈ (bootstrapLoop bus 1 locations []).1,
      ∃ k, 1 ≤ k ∧ locations[k - 1]? = some d.location ∧ d.path = "/Door/" ++ toString k) ∧
    ((bootstrapLoop bus 1 locations []).1.map Door.path).Nodup ∧
    (∀ k : Nat, decimalValue (toString k).data = k ∧
      ∀ c ∈ (toString k).data, c.isDigit = true) := by
  have hboot : (bootstrapLoop bus 1 locations []).1 = constructedDoors bus 1 locations := by
    simpa using (bootstrapLoop_spec bus 1 locations []).1
  rw [hboot]
  refine ⟨constructedDoors_paths bus 1 locations, ?_, constructedDoors_nodup bus 1 locations,
    toString_decimal⟩
  intro d hd
  have hmem : (d.location, d.path) ∈
      (constructedDoors bus 1 locations).map (fun d => (d.location, d.path)) :=
    List.mem_map_of_mem _ hd
  rw [constructedDoors_paths] at hmem
  obtain ⟨a, ha, hEq⟩ := List.mem_map.1 hmem
  have ha1 : a ∈ locations.enumFrom 1 := (List.mem_filter.1 ha).1
  obtain ⟨k, loc⟩ := a
  have hk := List.mk_mem_enumFrom_iff_le_and_getElem?_sub.1 ha1
  simp only [Prod.mk.injEq] at hEq
  exact ⟨k, hk.1, by rw [← hEq.1]; exact hk.2, hEq.2.symm⟩

/-- Witness of `door_paths`: the Attic door, third in the input, after a door
that failed to construct. -/
theorem door_paths_witness :
    (⟨"Attic", false, "/Door/3", .UNPUBLISHED⟩ : Door) ∈
      (bootstrapLoop patchyBus 1 ["Garage", "Lobby", "Attic", "Cellar"] []).1 ∧
    ∃ k, 1 ≤ k ∧ ["Garage", "Lobby", "Attic", "Cellar"][k - 1]? = some "Attic" ∧
      "/Door/3" = "/Door/" ++ toString k :=
  ⟨by decide,
   (door_paths patchyBus ["Garage", "Lobby", "Attic", "Cellar"]).2.1
     ⟨"Attic", false, "/Door/3", .UNPUBLISHED⟩ (by decide)⟩

end DoorProvider
